import Mathlib

/-!
Verification development for the CatchExcelImage core (`core.py`).

The Python source is shallowly embedded as follows:

* An `.xlsx` package is a `Package`: the list of ZIP entries (name and
  content, in archive order) together with the worksheet view that
  `openpyxl.load_workbook` exposes (sheet titles and cells).  ZIP entry
  content is an `Entry`: either raw bytes (`.bin`) or, for XML parts, the
  parsed element tree (`.xml`) — `xml.etree.ElementTree.fromstring` is
  modelled as succeeding exactly on `.xml` entries.
* Python exceptions become `Except PyErr`; a caught exception class is
  matched on the `PyErr` constructor.  `dict` becomes an association list
  with insert-overwrite semantics (`pyDictInsert`), `str.find`, slices,
  `split`, `strip` and friends are modelled character-exactly.
* Python `set(...)` iteration order is unspecified; `pySet` picks the
  first-occurrence order as a representative, and the workbook extractor
  is additionally parameterised over the enumeration
  (`extract_workbook_images_with`) so that order-independence can be
  stated and proved rather than assumed.
* File-system effects: each extractor returns the ordered list of
  (file name, content) pairs it writes into the output directory
  (absolute-path prefixing, `os.makedirs` and the GUI-oriented `print`
  calls and `custom_naming_func` parameter are outside the model; all
  claims concern the default-naming path).  On an uncaught exception the
  extractor returns `.error`, matching the fact that the Python function
  terminates without returning its `saved` list.
-/

/-! ### Python string primitives -/

/-- First index of `c` in the list, if any (`str.find` core). -/
def idxFrom (c : Char) : List Char → Option Nat
  | [] => none
  | x :: xs => if x == c then some 0 else (idxFrom c xs).map (· + 1)

/-- Python `value.find(c, start)`: first index `≥ start` holding `c`, else `-1`. -/
def pyFindChar (l : List Char) (c : Char) (start : Nat) : Int :=
  match idxFrom c (l.drop start) with
  | none => -1
  | some k => ((k + start : Nat) : Int)

/-- Python slice `l[start:stop]` for a non-negative `start`; a negative
`stop` counts from the end as in Python. -/
def pySlice (l : List Char) (start : Nat) (stop : Int) : List Char :=
  let stopN : Nat := if stop < 0 then ((l.length : Int) + stop).toNat else stop.toNat
  (l.take stopN).drop start

/-- Tests that `pat` is an initial segment of `l`. -/
def leadsWith : List Char → List Char → Bool
  | [], _ => true
  | _ :: _, [] => false
  | p :: ps, x :: xs => p == x && leadsWith ps xs

/-- Python substring containment `pat in l`. -/
def occursIn (pat : List Char) : List Char → Bool
  | [] => leadsWith pat []
  | x :: xs => leadsWith pat (x :: xs) || occursIn pat xs

/-- Python `str.split(sep)` on a single character separator. -/
def splitChar (sep : Char) : List Char → List (List Char)
  | [] => [[]]
  | x :: xs =>
    match splitChar sep xs with
    | [] => [[]]
    | y :: ys => if x == sep then [] :: y :: ys else (x :: y) :: ys

/-- Python `str.strip()` (whitespace at both ends). -/
def pyStrip (s : String) : String :=
  String.mk (((s.data.dropWhile Char.isWhitespace).reverse.dropWhile Char.isWhitespace).reverse)

/-- Python `str.replace(pat, rep)` (all non-overlapping occurrences,
left to right); an empty `pat` is not used by the source. -/
def replaceSub (pat rep : List Char) (l : List Char) : List Char :=
  if h : pat = [] then l
  else
    match l with
    | [] => []
    | x :: xs =>
      if leadsWith pat (x :: xs) then rep ++ replaceSub pat rep ((x :: xs).drop pat.length)
      else x :: replaceSub pat rep xs
termination_by l.length
decreasing_by
  · simp only [List.length_drop, List.length_cons]
    have : 0 < pat.length := List.length_pos.mpr h
    omega
  · simp

/-! ### Python dict / set on string keys -/

/-- Python dict lookup `d[k]` / `d.get(k)` as an association list keyed by
insertion order. -/
def pyLookup {β : Type} (d : List (String × β)) (k : String) : Option β :=
  (d.find? (fun p => p.1 == k)).map Prod.snd

/-- Python dict assignment `d[k] = v`: overwrite in place, else append. -/
def pyDictInsert {β : Type} (d : List (String × β)) (k : String) (v : β) : List (String × β) :=
  if (d.find? (fun p => p.1 == k)).isSome then
    d.map (fun p => if p.1 == k then (k, v) else p)
  else d ++ [(k, v)]

/-- One representative of `set(l)` iteration: first-occurrence order. -/
def pySet (l : List String) : List String :=
  l.foldl (fun acc x => if x ∈ acc then acc else acc ++ [x]) []

/-- A reversed enumeration of `set(l)`, used to witness that results do not
depend on the unspecified set iteration order. -/
def pySetRev (l : List String) : List String := (pySet l).reverse

/-- States that `e` enumerates exactly the members of `xs` (a valid `set(xs)`
iteration). -/
def isSetEnum (e : List String → List String) (xs : List String) : Prop :=
  (∀ a ∈ e xs, a ∈ xs) ∧ (∀ a ∈ xs, a ∈ e xs)

/-! ### Python integers and exceptions -/

/-- The exception classes the source raises or catches. -/
inductive PyErr where
  | keyError (msg : String)
  | attrError (msg : String)
  | valueError (msg : String)
  | parseError (msg : String)
deriving DecidableEq, Repr

def digitsVal (ds : List Char) : Nat :=
  ds.foldl (fun acc c => acc * 10 + (c.toNat - '0'.toNat)) 0

/-- Python `int(s)` on a string (sign and surrounding whitespace allowed),
`ValueError` otherwise. -/
def pyInt (s : String) : Except PyErr Int :=
  match (pyStrip s).data with
  | '-' :: ds =>
    if ds ≠ [] ∧ ds.all Char.isDigit then .ok (-(digitsVal ds : Int)) else .error (.valueError s)
  | ds =>
    if ds ≠ [] ∧ ds.all Char.isDigit then .ok ((digitsVal ds : Int)) else .error (.valueError s)

/-! ### XML element trees (`xml.etree.ElementTree`) -/

/-- A namespace-qualified XML name: namespace URI (empty for unqualified
attributes) and local name.  `ElementTree` matches by URI plus local name. -/
structure QName where
  ns : String
  ln : String
deriving DecidableEq, Repr

/-- A parsed XML element: tag, attributes, text content, children. -/
inductive XmlElem where
  | mk (tag : QName) (attrs : List (QName × String)) (text : String) (children : List XmlElem)

def XmlElem.tag : XmlElem → QName
  | .mk t _ _ _ => t

def XmlElem.attrs : XmlElem → List (QName × String)
  | .mk _ a _ _ => a

def XmlElem.text : XmlElem → String
  | .mk _ _ x _ => x

def XmlElem.children : XmlElem → List XmlElem
  | .mk _ _ _ cs => cs

mutual
/-- The subtree rooted at an element, in document (pre-) order. -/
def xmlSubtree : XmlElem → List XmlElem
  | .mk t a x cs => .mk t a x cs :: xmlSubtreeList cs

def xmlSubtreeList : List XmlElem → List XmlElem
  | [] => []
  | c :: cs => xmlSubtree c ++ xmlSubtreeList cs
end

/-- Models `elem.findall(".//tag", ns)`: all proper descendants with the given
qualified tag, in document order. -/
def findallDesc (e : XmlElem) (t : QName) : List XmlElem :=
  (xmlSubtreeList e.children).filter (fun x => x.tag == t)

/-- Models `elem.find(".//tag", ns)`: first proper descendant with the tag. -/
def findDesc (e : XmlElem) (t : QName) : Option XmlElem :=
  (findallDesc e t).head?

/-- Models `elem.find("tag", ns)` without `.//`: first direct child with the tag. -/
def findChild (e : XmlElem) (t : QName) : Option XmlElem :=
  e.children.find? (fun x => x.tag == t)

/-- Models `elem.get(key)`: attribute lookup returning `None` when absent. -/
def attrGet (e : XmlElem) (k : QName) : Option String :=
  (e.attrs.find? (fun p => p.1 == k)).map Prod.snd

/-- Models `elem.get(key, default)`. -/
def attrGetD (e : XmlElem) (k : QName) (d : String) : String :=
  (attrGet e k).getD d

/-- Models `elem.attrib[key]`: raises `KeyError` when absent. -/
def attribIdx (e : XmlElem) (k : QName) : Except PyErr String :=
  match attrGet e k with
  | some v => .ok v
  | none => .error (.keyError k.ln)

/-- The type `xml.etree.ElementTree.Element` has no `getparent` method (that is an
lxml extension); `pic.getparent()` in `_get_floating_image_positions`
therefore raises `AttributeError` on every call. -/
def Element.getparent (_ : XmlElem) : Except PyErr XmlElem :=
  .error (.attrError "getparent")

/-! ### The package (ZIP container plus openpyxl worksheet view) -/

/-- Content of one ZIP entry: raw bytes, or a parsed XML document for the
XML parts the source feeds to `ET.fromstring`. -/
inductive Entry where
  | bin (data : List Nat)
  | xml (doc : XmlElem)

/-- Models `ET.fromstring(bytes)`: succeeds exactly on the XML entries. -/
def et_fromstring (e : Entry) : Except PyErr XmlElem :=
  match e with
  | .xml doc => .ok doc
  | .bin _ => .error (.parseError "not well-formed")

/-- One worksheet cell as `openpyxl` presents it: 1-based row and column
and the cell value coerced to text (`None` for an empty cell). -/
structure Cell where
  row : Nat
  column : Nat
  val : Option String

/-- One worksheet: title and cells in `iter_rows` order (row-major). -/
structure Sheet where
  title : String
  cells : List Cell

/-- An opened `.xlsx` package. -/
structure Package where
  entries : List (String × Entry)
  sheets : List Sheet

/-- Models `zipfile.ZipFile.namelist()`. -/
def Package.namelist (pkg : Package) : List String :=
  pkg.entries.map Prod.fst

/-- Models `zipfile.ZipFile.read(p)`: `KeyError` when the entry is absent. -/
def Package.read (pkg : Package) (p : String) : Except PyErr Entry :=
  match pkg.entries.find? (fun q => q.1 == p) with
  | some q => .ok q.2
  | none => .error (.keyError p)

/-- Models `wb[sheet_name]`: `KeyError` when no worksheet has that title. -/
def wbGetSheet (pkg : Package) (nm : String) : Except PyErr Sheet :=
  match pkg.sheets.find? (fun ws => ws.title == nm) with
  | some ws => .ok ws
  | none => .error (.keyError nm)

/-- The 1-based index of the worksheet with the given title, in workbook
order (`enumerate(wb.worksheets, 1)`). -/
def sheetIndexAux (nm : String) : List Sheet → Nat → Option Nat
  | [], _ => none
  | ws :: rest, i => if ws.title == nm then some i else sheetIndexAux nm rest (i + 1)

def sheetIndexOf (pkg : Package) (nm : String) : Option Nat :=
  sheetIndexAux nm pkg.sheets 1

/-! ### openpyxl column-letter utilities -/

/-- Models `openpyxl.utils.column_index_from_string`: 1-based index of a column
letter code (up to three letters, case-insensitive), `ValueError`
otherwise. -/
def column_index_from_string (s : String) : Except PyErr Nat :=
  let u := s.data.map Char.toUpper
  if u ≠ [] ∧ u.all (fun c => 'A' ≤ c && c ≤ 'Z') ∧ u.length ≤ 3 then
    .ok (u.foldl (fun acc c => acc * 26 + (c.toNat - 'A'.toNat + 1)) 0)
  else .error (.valueError s)

def ltrChar (k : Nat) : Char := Char.ofNat ('A'.toNat + k)

def colLetters (n : Nat) : List Char :=
  let q2 := (n - 1) / 26
  if q2 = 0 then [ltrChar ((n - 1) % 26)]
  else
    let q1 := (q2 - 1) / 26
    if q1 = 0 then [ltrChar ((q2 - 1) % 26), ltrChar ((n - 1) % 26)]
    else [ltrChar ((q1 - 1) % 26), ltrChar ((q2 - 1) % 26), ltrChar ((n - 1) % 26)]

/-- Models `openpyxl.utils.get_column_letter`: letter code of a 1-based column
index (valid up to `ZZZ` = 18278). -/
def get_column_letter (n : Nat) : Except PyErr String :=
  if 1 ≤ n ∧ n ≤ 18278 then .ok (String.mk (colLetters n)) else .error (.valueError (toString n))

/-! ### Namespace constants of `core.py` -/

def xdrNS : String := "http://schemas.openxmlformats.org/drawingml/2006/spreadsheetDrawing"

def aNS : String := "http://schemas.openxmlformats.org/drawingml/2006/main"

def pkgRelNS : String := "http://schemas.openxmlformats.org/package/2006/relationships"

def odRelNS : String := "http://schemas.openxmlformats.org/officeDocument/2006/relationships"

def xdrPicTag : QName := ⟨xdrNS, "pic"⟩

def xdrCNvPrTag : QName := ⟨xdrNS, "cNvPr"⟩

def xdrFromTag : QName := ⟨xdrNS, "from"⟩

def xdrToTag : QName := ⟨xdrNS, "to"⟩

def xdrColTag : QName := ⟨xdrNS, "col"⟩

def xdrRowTag : QName := ⟨xdrNS, "row"⟩

def aBlipTag : QName := ⟨aNS, "blip"⟩

def pkgRelTag : QName := ⟨pkgRelNS, "Relationship"⟩

def rEmbedAttr : QName := ⟨odRelNS, "embed"⟩

def nameAttr : QName := ⟨"", "name"⟩

def idAttr : QName := ⟨"", "Id"⟩

def targetAttr : QName := ⟨"", "Target"⟩

/-! ### `_extract_dispimg_ids` -/

def dispimg_marker : String := "=_xlfn.DISPIMG("

/-- Models `str(cell.value or "")`. -/
def cellText (cl : Cell) : String := cl.val.getD ""

/-- The per-cell step of `_extract_dispimg_ids` (lines 36-40 of
`core.py`): when the text holds the DISPIMG marker, the slice between
`value.find(chr(34)) + 1` and the next quote is appended. -/
def dispimg_of_value (value : String) : Option String :=
  if occursIn dispimg_marker.data value.data then
    let start : Nat := (pyFindChar value.data '"' 0 + 1).toNat
    let stop : Int := pyFindChar value.data '"' start
    some (String.mk (pySlice value.data start stop))
  else none

/-- The cell loop of `_extract_dispimg_ids` with an already resolved
column filter (`None` scans every cell). -/
def dispimg_scan (ws : Sheet) (col_idx : Option Nat) : List String :=
  ws.cells.filterMap (fun cl =>
    match col_idx with
    | some idx => if cl.column ≠ idx then none else dispimg_of_value (cellText cl)
    | none => dispimg_of_value (cellText cl))

/-- Models `_extract_dispimg_ids(ws, target_col)`: scans the worksheet for
DISPIMG identifiers, restricted to one column letter when given.  A
falsy (empty) `target_col` leaves the scan unrestricted, matching the
`if target_col` truthiness tests in the source. -/
def _extract_dispimg_ids (ws : Sheet) (target_col : Option String) : Except PyErr (List String) :=
  match target_col with
  | none => .ok (dispimg_scan ws none)
  | some t =>
    if t = "" then .ok (dispimg_scan ws none)
    else
      match column_index_from_string t with
      | .error e => .error e
      | .ok idx => .ok (dispimg_scan ws (some idx))

/-! ### `_build_id_to_image_map` -/

/-- The `name -> rid` loop of `_build_id_to_image_map` (dict built in
iteration order): for each `xdr:pic` descendant, `find(".//xdr:cNvPr")`
(raising `AttributeError` on `None`, as `None.attrib` does), its `name`
attribute, the `.//a:blip` element and its `r:embed` attribute. -/
def nameToRid (pics : List XmlElem) (acc : List (String × String)) :
    Except PyErr (List (String × String)) :=
  match pics with
  | [] => .ok acc
  | pic :: rest =>
    match findDesc pic xdrCNvPrTag with
    | none => .error (.attrError "attrib")
    | some cnv =>
      match attribIdx cnv nameAttr with
      | .error e => .error e
      | .ok nm =>
        match findDesc pic aBlipTag with
        | none => .error (.attrError "attrib")
        | some blip =>
          match attribIdx blip rEmbedAttr with
          | .error e => .error e
          | .ok rid => nameToRid rest (pyDictInsert acc nm rid)

/-- The `rid -> path` loop over the relationships document (dict built
in iteration order). -/
def ridToPath (rels : List XmlElem) (acc : List (String × String)) :
    Except PyErr (List (String × String)) :=
  match rels with
  | [] => .ok acc
  | rel :: rest =>
    match attribIdx rel idAttr with
    | .error e => .error e
    | .ok rid =>
      match attribIdx rel targetAttr with
      | .error e => .error e
      | .ok tgt => ridToPath rest (pyDictInsert acc rid tgt)

/-- Models `_build_id_to_image_map(xlsx_path)`: checks for the two cell-image
manifest entries (raising `KeyError` when absent), parses both, and joins
picture names to relationship targets, silently dropping names whose
relationship id has no match. -/
def _build_id_to_image_map (pkg : Package) : Except PyErr (List (String × String)) :=
  let file_list := pkg.namelist
  if file_list.contains "xl/cellimages.xml" = false then
    .error (.keyError "No embedded images found: cellimages.xml")
  else if file_list.contains "xl/_rels/cellimages.xml.rels" = false then
    .error (.keyError "No embedded images found: cellimages.xml.rels")
  else
    match pkg.read "xl/cellimages.xml" with
    | .error e => .error e
    | .ok ci =>
      match pkg.read "xl/_rels/cellimages.xml.rels" with
      | .error e => .error e
      | .ok rl =>
        match et_fromstring ci with
        | .error e => .error e
        | .ok root =>
          match et_fromstring rl with
          | .error e => .error e
          | .ok root_rels =>
            match nameToRid (findallDesc root xdrPicTag) [] with
            | .error e => .error e
            | .ok name_to_rid =>
              match ridToPath (findallDesc root_rels pkgRelTag) [] with
              | .error e => .error e
              | .ok rid_to_path =>
                .ok (name_to_rid.filterMap (fun p =>
                  (pyLookup rid_to_path p.2).map (fun tgt => (p.1, tgt))))

/-! ### `_extract_floating_images` -/

/-- Models `_extract_floating_images(xlsx_path)`: every archive entry under
`xl/media/` keyed by base filename, the value being the entry path with
the `xl/` prefix removed; later entries overwrite earlier ones. -/
def _extract_floating_images (pkg : Package) : List (String × String) :=
  pkg.namelist.foldl (fun acc file_path =>
    if leadsWith "xl/media/".data file_path.data ∧ file_path.data.getLast? ≠ some '/' then
      pyDictInsert acc (String.mk ((splitChar '/' file_path.data).getLastD []))
        (String.mk (file_path.data.drop 3))
    else acc) []

/-! ### `_get_floating_image_positions` -/

/-- A floating-image anchor box, in the 0-based integers stored by the
drawing XML. -/
structure Box where
  from_col : Int
  to_col : Int
  from_row : Int
  to_row : Int
deriving DecidableEq, Repr

/-- The worksheet-relationships scan (lines 149-160 of `core.py`): the
first relationship whose target mentions `drawing` gives the drawing
part path, prefixed by `xl/`; any failure is swallowed (`except: pass`). -/
def findDrawingPath (pkg : Package) (drawing_rels_path : String) : Option String :=
  match pkg.read drawing_rels_path with
  | .error _ => none
  | .ok rx =>
    match et_fromstring rx with
    | .error _ => none
    | .ok rels_root =>
      match (findallDesc rels_root pkgRelTag).find?
          (fun rel => occursIn "drawing".data (attrGetD rel targetAttr "").data) with
      | none => none
      | some rel => some ("xl/" ++ attrGetD rel targetAttr "")

/-- The per-picture body of the drawing loop (lines 176-213 of
`core.py`).  After reading the blip relationship id the source calls
`pic.getparent()`, which `xml.etree` elements do not have, so this
computation always stops with `AttributeError` (or yields nothing when
the picture has no blip); the remainder is the faithful translation of
the unreachable tail. -/
def picPosition (pkg : Package) (file_list : List String) (drawing_path : String)
    (pic : XmlElem) : Except PyErr (Option (String × Box)) :=
  match findDesc pic aBlipTag with
  | none => .ok none
  | some blip =>
    let r_embed := attrGet blip rEmbedAttr
    match Element.getparent pic with
    | .error e => .error e
    | .ok anchor =>
      match findDesc anchor xdrFromTag, findDesc anchor xdrToTag with
      | some from_elem, some to_elem =>
        match findChild from_elem xdrColTag, findChild to_elem xdrColTag,
            findChild from_elem xdrRowTag, findChild to_elem xdrRowTag with
        | some fc, some tc, some fr, some tr =>
          let drawing_rels_path :=
            String.mk (replaceSub ".xml".data ".xml.rels".data drawing_path.data)
          if file_list.contains drawing_rels_path then
            match pkg.read drawing_rels_path with
            | .error e => .error e
            | .ok rx =>
              match et_fromstring rx with
              | .error e => .error e
              | .ok rels_root =>
                match (findallDesc rels_root pkgRelTag).find?
                    (fun rel => attrGet rel idAttr == r_embed) with
                | none => .ok none
                | some rel =>
                  match attrGet rel targetAttr with
                  | none => .ok none
                  | some target =>
                    if target.data ≠ [] then
                      match pyInt fc.text, pyInt tc.text, pyInt fr.text, pyInt tr.text with
                      | .ok a, .ok b, .ok c, .ok d =>
                        .ok (some (String.mk ((splitChar '/' target.data).getLastD []),
                          ⟨a, b, c, d⟩))
                      | .error e, _, _, _ => .error e
                      | _, .error e, _, _ => .error e
                      | _, _, .error e, _ => .error e
                      | _, _, _, .error e => .error e
                    else .ok none
          else .ok none
        | _, _, _, _ => .ok none
      | _, _ => .ok none

/-- The drawing-document loop: every `xdr:pic`, each failure caught and
skipped (`except: continue`), successes inserted into the dict. -/
def picFold (pkg : Package) (file_list : List String) (drawing_path : String)
    (pics : List XmlElem) (acc : List (String × Box)) : List (String × Box) :=
  match pics with
  | [] => acc
  | pic :: rest =>
    match picPosition pkg file_list drawing_path pic with
    | .ok (some fb) => picFold pkg file_list drawing_path rest (pyDictInsert acc fb.1 fb.2)
    | _ => picFold pkg file_list drawing_path rest acc

/-- Models `_get_floating_image_positions(xlsx_path, sheet_name)`: resolves the
sheet index, its relationships file, the drawing part, and folds the
per-picture parse over every picture, all failures swallowed. -/
def _get_floating_image_positions (pkg : Package) (sheet_name : String) :
    List (String × Box) :=
  let file_list := pkg.namelist
  match sheetIndexOf pkg sheet_name with
  | none => []
  | some sheet_index =>
    let drawing_rels_path := "xl/worksheets/_rels/sheet" ++ toString sheet_index ++ ".xml.rels"
    let drawing_path : Option String :=
      if file_list.contains drawing_rels_path then findDrawingPath pkg drawing_rels_path
      else none
    match drawing_path with
    | none => []
    | some dp =>
      if file_list.contains dp then
        match pkg.read dp with
        | .error _ => []
        | .ok dx =>
          match et_fromstring dx with
          | .error _ => []
          | .ok drawing_root => picFold pkg file_list dp (findallDesc drawing_root xdrPicTag) []
      else []

/-! ### `_get_all_images_map` -/

/-- Models `_get_all_images_map(xlsx_path)`: the embedded map with a missing
manifest (`KeyError`) swallowed into the empty mapping, paired with the
floating-image listing.  Any other exception class propagates. -/
def _get_all_images_map (pkg : Package) :
    Except PyErr (List (String × String) × List (String × String)) :=
  match _build_id_to_image_map pkg with
  | .error (.keyError _) => .ok ([], _extract_floating_images pkg)
  | .error e => .error e
  | .ok embedded_images => .ok (embedded_images, _extract_floating_images pkg)

/-! ### The write phases of the extraction orchestrators -/

/-- The embedded-image loop shared by the orchestrators: for each scanned
identifier that resolves, read `xl/` plus the target and write
`<identifier>.png`. -/
def embedded_writes (read : String → Except PyErr Entry) (ids : List String)
    (embedded_images : List (String × String)) : Except PyErr (List (String × Entry)) :=
  match ids with
  | [] => .ok []
  | img_id :: rest =>
    match pyLookup embedded_images img_id with
    | none => embedded_writes read rest embedded_images
    | some target =>
      match read ("xl/" ++ target) with
      | .error e => .error e
      | .ok img_data =>
        match embedded_writes read rest embedded_images with
        | .error e => .error e
        | .ok ws => .ok ((img_id ++ ".png", img_data) :: ws)

/-- The floating loop of `extract_workbook_images`: every media entry,
unfiltered, written as `FLOAT_<filename>`. -/
def workbook_float_writes (read : String → Except PyErr Entry) :
    List (String × String) → Except PyErr (List (String × Entry))
  | [] => .ok []
  | (filename, internal_path) :: rest =>
    match read ("xl/" ++ internal_path) with
    | .error e => .error e
    | .ok img_data =>
      match workbook_float_writes read rest with
      | .error e => .error e
      | .ok ws => .ok (("FLOAT_" ++ filename, img_data) :: ws)

/-- The floating loop of `extract_sheet_images`: only media entries whose
filename appears in the position map of the requested sheet are written. -/
def sheet_float_writes (read : String → Except PyErr Entry)
    (floating : List (String × String)) (floating_positions : List (String × Box)) :
    Except PyErr (List (String × Entry)) :=
  match floating with
  | [] => .ok []
  | (filename, internal_path) :: rest =>
    match pyLookup floating_positions filename with
    | some _ =>
      match read ("xl/" ++ internal_path) with
      | .error e => .error e
      | .ok img_data =>
        match sheet_float_writes read rest floating_positions with
        | .error e => .error e
        | .ok ws => .ok (("FLOAT_" ++ filename, img_data) :: ws)
    | none => sheet_float_writes read rest floating_positions

/-- Python `range(a, b)` over integers. -/
def intRange (a b : Int) : List Int :=
  (List.range (b - a).toNat).map (fun (k : Nat) => a + (k : Int))

/-- The per-image filter of `extract_column_images` (lines 516-529 of
`core.py`): with position data, include exactly when the occupied column
range `[from_col, to_col]` meets the requested 0-based indices; without
position data, include permissively. -/
def should_include_floating (floating_positions : List (String × Box)) (targets : List Int)
    (filename : String) : Bool :=
  match pyLookup floating_positions filename with
  | some pos => (intRange pos.from_col (pos.to_col + 1)).any (fun c => targets.contains c)
  | none => true

/-- The floating loop of `extract_column_images`: media entries passing
`should_include_floating` are written as `FLOAT_<filename>`. -/
def column_float_writes (read : String → Except PyErr Entry)
    (floating : List (String × String)) (floating_positions : List (String × Box))
    (targets : List Int) : Except PyErr (List (String × Entry)) :=
  match floating with
  | [] => .ok []
  | (filename, internal_path) :: rest =>
    match should_include_floating floating_positions targets filename with
    | true =>
      match read ("xl/" ++ internal_path) with
      | .error e => .error e
      | .ok img_data =>
        match column_float_writes read rest floating_positions targets with
        | .error e => .error e
        | .ok ws => .ok (("FLOAT_" ++ filename, img_data) :: ws)
    | false => column_float_writes read rest floating_positions targets

/-! ### The column-specification mini-language -/

/-- The column-argument parser of `extract_column_images` (lines 455-469
of `core.py`): a comma anywhere takes the list branch (each part
stripped), else a hyphen takes the inclusive-range branch (exactly one
hyphen, `ValueError` otherwise, as tuple unpacking raises), else the
single stripped column. -/
def parse_column_list (columns : String) : Except PyErr (List String) :=
  if occursIn ",".data columns.data then
    .ok ((splitChar ',' columns.data).map (fun p => pyStrip (String.mk p)))
  else if occursIn "-".data columns.data then
    match splitChar '-' columns.data with
    | [a, b] =>
      match column_index_from_string (pyStrip (String.mk a)) with
      | .error e => .error e
      | .ok start_idx =>
        match column_index_from_string (pyStrip (String.mk b)) with
        | .error e => .error e
        | .ok end_idx => (List.range' start_idx (end_idx + 1 - start_idx)).mapM get_column_letter
    | _ => .error (.valueError "unpack")
  else .ok [pyStrip columns]

/-- The 0-based conversion of lines 509-512 of `core.py`:
`column_index_from_string(col) - 1` for each requested column. -/
def target_col_indices_of (column_list : List String) : Except PyErr (List Int) :=
  column_list.mapM (fun col => (column_index_from_string col).map (fun i => (i : Int) - 1))

/-! ### The four extraction orchestrators -/

/-- The identifier scan of `extract_workbook_images`: every worksheet,
no column restriction, in workbook order. -/
def workbook_all_ids (pkg : Package) : List String :=
  pkg.sheets.flatMap (fun ws => dispimg_scan ws none)

/-- Models `extract_workbook_images`, parameterised over the `set(all_ids)`
enumeration order (which Python leaves unspecified). -/
def extract_workbook_images_with (enum : List String → List String) (pkg : Package)
    (include_floating : Bool) : Except PyErr (List (String × Entry)) :=
  let all_ids := workbook_all_ids pkg
  match _get_all_images_map pkg with
  | .error e => .error e
  | .ok (embedded_images, floating_images) =>
    match embedded_writes pkg.read (enum all_ids) embedded_images with
    | .error e => .error e
    | .ok ew =>
      match include_floating with
      | true =>
        match workbook_float_writes pkg.read floating_images with
        | .error e => .error e
        | .ok fw => .ok (ew ++ fw)
      | false => .ok ew

/-- Models `extract_workbook_images(xlsx_path, output_dir, include_floating)`
with the default naming (no callback): the written (name, content)
pairs, in write order. -/
def extract_workbook_images (pkg : Package) (include_floating : Bool) :
    Except PyErr (List (String × Entry)) :=
  extract_workbook_images_with pySet pkg include_floating

/-- Models `extract_sheet_images(xlsx_path, sheet_name, ...)` with the default
naming: embedded identifiers of the named sheet, then floating images
filtered to the sheet position map. -/
def extract_sheet_images (pkg : Package) (sheet_name : String) (include_floating : Bool) :
    Except PyErr (List (String × Entry)) :=
  match wbGetSheet pkg sheet_name with
  | .error e => .error e
  | .ok ws =>
    match _extract_dispimg_ids ws none with
    | .error e => .error e
    | .ok ids =>
      match _get_all_images_map pkg with
      | .error e => .error e
      | .ok (embedded_images, floating_images) =>
        match embedded_writes pkg.read (pySet ids) embedded_images with
        | .error e => .error e
        | .ok ew =>
          match include_floating with
          | true =>
            match sheet_float_writes pkg.read floating_images
                (_get_floating_image_positions pkg sheet_name) with
            | .error e => .error e
            | .ok fw => .ok (ew ++ fw)
          | false => .ok ew

/-- Models `extract_column_images(xlsx_path, sheet_name, columns, ...)` with the
default naming: the column spec is parsed, each listed column scanned,
embedded images written, then floating images filtered by column
intersection with the permissive fallback. -/
def extract_column_images (pkg : Package) (sheet_name columns : String)
    (include_floating : Bool) : Except PyErr (List (String × Entry)) :=
  match wbGetSheet pkg sheet_name with
  | .error e => .error e
  | .ok ws =>
    match parse_column_list columns with
    | .error e => .error e
    | .ok column_list =>
      match column_list.mapM (fun col => _extract_dispimg_ids ws (some col)) with
      | .error e => .error e
      | .ok ids_per_col =>
        let all_ids := ids_per_col.flatten
        match _get_all_images_map pkg with
        | .error e => .error e
        | .ok (embedded_images, floating_images) =>
          match embedded_writes pkg.read (pySet all_ids) embedded_images with
          | .error e => .error e
          | .ok ew =>
            match include_floating with
            | true =>
              let floating_positions := _get_floating_image_positions pkg sheet_name
              match target_col_indices_of column_list with
              | .error e => .error e
              | .ok target_col_indices =>
                match column_float_writes pkg.read floating_images floating_positions
                    target_col_indices with
                | .error e => .error e
                | .ok fw => .ok (ew ++ fw)
            | false => .ok ew

/-- Models `extract_image_by_id(xlsx_path, image_id, ...)` with the default
naming: `.ok (some (name, content))` when the identifier resolves and
the single file is written, `.ok none` for the not-found result (no file
written), `.error` when an uncaught exception escapes. -/
def extract_image_by_id (pkg : Package) (image_id : String) :
    Except PyErr (Option (String × Entry)) :=
  match _get_all_images_map pkg with
  | .error (.keyError _) => .ok none
  | .error e => .error e
  | .ok (embedded_images, _) =>
    match pyLookup embedded_images image_id with
    | none => .ok none
    | some target =>
      match pkg.read ("xl/" ++ target) with
      | .error e => .error e
      | .ok img_data => .ok (some (image_id ++ ".png", img_data))

/-! ### Concrete packages used as witnesses and counterexamples -/

/-- A cell-image picture node: `xdr:pic` holding `xdr:cNvPr` (display
name) and `a:blip` (relationship id), as in `xl/cellimages.xml`. -/
def picXml (nm rid : String) : XmlElem :=
  .mk xdrPicTag [] ""
    [.mk xdrCNvPrTag [(nameAttr, nm)] "" [],
     .mk aBlipTag [(rEmbedAttr, rid)] "" []]

/-- A relationship node with `Id` and `Target`. -/
def relXml (rid tgt : String) : XmlElem :=
  .mk pkgRelTag [(idAttr, rid), (targetAttr, tgt)] "" []

def cellimagesDoc (pics : List XmlElem) : XmlElem :=
  .mk ⟨xdrNS, "cellImages"⟩ [] "" pics

def relsDoc (rels : List XmlElem) : XmlElem :=
  .mk ⟨pkgRelNS, "Relationships"⟩ [] "" rels

/-- A package with one floating image, one empty sheet, and no cell-image
manifests. -/
def pkgMediaOnly : Package :=
  ⟨[("xl/media/pic.png", .bin [9])], [⟨"S", []⟩]⟩

/-- A package whose embedded identifier `FLOAT_pic` produces the output
name `FLOAT_pic.png`, colliding with the floating image `pic.png`. -/
def pkgCollision : Package :=
  ⟨[("xl/cellimages.xml", .xml (cellimagesDoc [picXml "FLOAT_pic" "rId1"])),
    ("xl/_rels/cellimages.xml.rels", .xml (relsDoc [relXml "rId1" "embeddings/e1.png"])),
    ("xl/embeddings/e1.png", .bin [1]),
    ("xl/media/pic.png", .bin [2])],
   [⟨"S", [⟨1, 1, some "=_xlfn.DISPIMG(\"FLOAT_pic\",1)"⟩]⟩]⟩

/-- A package with one embedded identifier `IDA` and one floating image,
with no output-name collision. -/
def pkgClean : Package :=
  ⟨[("xl/cellimages.xml", .xml (cellimagesDoc [picXml "IDA" "rId1"])),
    ("xl/_rels/cellimages.xml.rels", .xml (relsDoc [relXml "rId1" "embeddings/e1.png"])),
    ("xl/embeddings/e1.png", .bin [1]),
    ("xl/media/pic.png", .bin [2])],
   [⟨"S", [⟨1, 1, some "=_xlfn.DISPIMG(\"IDA\",1)"⟩]⟩]⟩

/-- A package with two embedded identifiers, used to vary the set
iteration order. -/
def pkgTwoIds : Package :=
  ⟨[("xl/cellimages.xml", .xml (cellimagesDoc [picXml "A1" "rId1", picXml "B1" "rId2"])),
    ("xl/_rels/cellimages.xml.rels",
      .xml (relsDoc [relXml "rId1" "embeddings/a.png", relXml "rId2" "embeddings/b.png"])),
    ("xl/embeddings/a.png", .bin [1]),
    ("xl/embeddings/b.png", .bin [2])],
   [⟨"S", [⟨1, 1, some "=_xlfn.DISPIMG(\"A1\",1)"⟩, ⟨2, 1, some "=_xlfn.DISPIMG(\"B1\",1)"⟩]⟩]⟩

/-! ### Helper lemmas: strings, sets, ranges -/

theorem string_append_right_cancel {a b c : String} (h : a ++ c = b ++ c) : a = b := by
  have hd := congrArg String.data h
  simp only [String.data_append] at hd
  exact String.ext (List.append_cancel_right hd)

theorem string_append_left_cancel {a b c : String} (h : a ++ b = a ++ c) : b = c := by
  have hd := congrArg String.data h
  simp only [String.data_append] at hd
  exact String.ext (List.append_cancel_left hd)

theorem pySet_go_mem (l : List String) :
    ∀ acc x, (x ∈ l.foldl (fun acc x => if x ∈ acc then acc else acc ++ [x]) acc) ↔
      (x ∈ acc ∨ x ∈ l) := by
  induction l with
  | nil => intro acc x; simp
  | cons a t ih =>
    intro acc x
    simp only [List.foldl_cons]
    by_cases h : a ∈ acc
    · rw [if_pos h, ih]
      constructor
      · rintro (hx | hx)
        · exact Or.inl hx
        · exact Or.inr (List.mem_cons_of_mem _ hx)
      · rintro (hx | hx)
        · exact Or.inl hx
        · rcases List.mem_cons.mp hx with rfl | hx
          · exact Or.inl h
          · exact Or.inr hx
    · rw [if_neg h, ih]
      simp only [List.mem_append, List.mem_singleton, List.mem_cons]
      tauto

theorem pySet_mem {l : List String} {x : String} : x ∈ pySet l ↔ x ∈ l := by
  have := pySet_go_mem l [] x
  simpa [pySet] using this

theorem pySet_go_nodup (l : List String) :
    ∀ acc, acc.Nodup → (l.foldl (fun acc x => if x ∈ acc then acc else acc ++ [x]) acc).Nodup := by
  induction l with
  | nil => intro acc h; simpa using h
  | cons a t ih =>
    intro acc h
    simp only [List.foldl_cons]
    by_cases ha : a ∈ acc
    · rw [if_pos ha]; exact ih acc h
    · rw [if_neg ha]
      refine ih _ ?_
      simp [List.nodup_append, h, ha]

theorem pySet_nodup (l : List String) : (pySet l).Nodup :=
  pySet_go_nodup l [] (by simp)

theorem intRange_mem {a b c : Int} : c ∈ intRange a b ↔ a ≤ c ∧ c < b := by
  unfold intRange
  rw [List.mem_map]
  constructor
  · rintro ⟨k, hk, rfl⟩
    rw [List.mem_range] at hk
    omega
  · rintro ⟨h1, h2⟩
    refine ⟨(c - a).toNat, ?_, ?_⟩
    · rw [List.mem_range]
      omega
    · omega

theorem should_include_iff {positions : List (String × Box)} {targets : List Int}
    {f : String} {pos : Box} (h : pyLookup positions f = some pos) :
    should_include_floating positions targets f = true ↔
      ∃ c, c ∈ targets ∧ pos.from_col ≤ c ∧ c ≤ pos.to_col := by
  simp only [should_include_floating, h, List.any_eq_true]
  constructor
  · rintro ⟨c, hc, hct⟩
    rw [intRange_mem] at hc
    refine ⟨c, ?_, hc.1, by omega⟩
    simpa using hct
  · rintro ⟨c, hct, h1, h2⟩
    exact ⟨c, intRange_mem.mpr ⟨h1, by omega⟩, by simpa using hct⟩

/-! ### Helper lemmas: the write phases -/

theorem embedded_writes_empty_map (read : String → Except PyErr Entry) :
    ∀ ids, embedded_writes read ids [] = .ok [] := by
  intro ids
  induction ids with
  | nil => rfl
  | cons a t ih => simpa [embedded_writes, pyLookup] using ih

theorem embedded_writes_names (read : String → Except PyErr Entry)
    (emb : List (String × String)) :
    ∀ ids ew, embedded_writes read ids emb = .ok ew →
      ∀ n, n ∈ ew.map Prod.fst ↔
        ∃ id, id ∈ ids ∧ (∃ t, pyLookup emb id = some t) ∧ n = id ++ ".png" := by
  intro ids
  induction ids with
  | nil =>
    intro ew h n
    simp only [embedded_writes] at h
    cases h
    simp
  | cons a t ih =>
    intro ew h n
    cases hl : pyLookup emb a with
    | none =>
      simp only [embedded_writes, hl] at h
      rw [ih ew h n]
      constructor
      · rintro ⟨id, hm, ht, rfl⟩
        exact ⟨id, List.mem_cons_of_mem _ hm, ht, rfl⟩
      · rintro ⟨id, hm, ht, rfl⟩
        rcases List.mem_cons.mp hm with rfl | hm
        · obtain ⟨tt, htt⟩ := ht
          rw [hl] at htt
          cases htt
        · exact ⟨id, hm, ht, rfl⟩
    | some tgt =>
      cases hr : read ("xl/" ++ tgt) with
      | error e =>
        simp only [embedded_writes, hl, hr] at h
        exact absurd h (by simp)
      | ok d =>
        cases hrec : embedded_writes read t emb with
        | error e =>
          simp only [embedded_writes, hl, hr, hrec] at h
          exact absurd h (by simp)
        | ok ws' =>
          simp only [embedded_writes, hl, hr, hrec] at h
          cases h
          simp only [List.map_cons, List.mem_cons]
          rw [ih ws' hrec n]
          constructor
          · rintro (rfl | ⟨id, hm, ht, rfl⟩)
            · exact ⟨a, Or.inl rfl, ⟨tgt, hl⟩, rfl⟩
            · exact ⟨id, Or.inr hm, ht, rfl⟩
          · rintro ⟨id, rfl | hm, ht, rfl⟩
            · exact Or.inl rfl
            · exact Or.inr ⟨id, hm, ht, rfl⟩

theorem embedded_writes_unique (read : String → Except PyErr Entry)
    (emb : List (String × String)) :
    ∀ ids ew, ids.Nodup → embedded_writes read ids emb = .ok ew →
      ∀ id t, id ∈ ids → pyLookup emb id = some t →
        (ew.map Prod.fst).count (id ++ ".png") = 1 ∧
        ∀ e, (id ++ ".png", e) ∈ ew → read ("xl/" ++ t) = .ok e := by
  intro ids
  induction ids with
  | nil =>
    intro ew _ h id t hm
    cases hm
  | cons a rest ih =>
    intro ew hnd h id t hm hl
    obtain ⟨hna, hndr⟩ := List.nodup_cons.mp hnd
    cases hla : pyLookup emb a with
    | none =>
      simp only [embedded_writes, hla] at h
      rcases List.mem_cons.mp hm with rfl | hm
      · rw [hla] at hl; cases hl
      · exact ih ew hndr h id t hm hl
    | some tgta =>
      cases hr : read ("xl/" ++ tgta) with
      | error e =>
        simp only [embedded_writes, hla, hr] at h
        exact absurd h (by simp)
      | ok d =>
        cases hrec : embedded_writes read rest emb with
        | error e =>
          simp only [embedded_writes, hla, hr, hrec] at h
          exact absurd h (by simp)
        | ok ws' =>
          simp only [embedded_writes, hla, hr, hrec] at h
          cases h
          rcases List.mem_cons.mp hm with rfl | hm
          · have htgt : tgta = t := by rw [hla] at hl; cases hl; rfl
            subst htgt
            have hzero : (ws'.map Prod.fst).count (id ++ ".png") = 0 := by
              rw [List.count_eq_zero]
              intro hmem
              rw [embedded_writes_names read emb rest ws' hrec] at hmem
              obtain ⟨id', hid', _, heq⟩ := hmem
              have : id' = id := string_append_right_cancel heq.symm
              subst this
              exact hna hid'
            constructor
            · simp [List.count_cons, hzero]
            · intro e hmem
              rcases List.mem_cons.mp hmem with heq | hmem
              · cases heq
                exact hr
              · have hmm : (id ++ ".png") ∈ ws'.map Prod.fst :=
                  List.mem_map.mpr ⟨(id ++ ".png", e), hmem, rfl⟩
                exact absurd hmm (List.count_eq_zero.mp hzero)
          · have hne : a ++ ".png" ≠ id ++ ".png" := by
              intro heq
              exact hna (string_append_right_cancel heq ▸ hm)
            obtain ⟨hcount, hpin⟩ := ih ws' hndr hrec id t hm hl
            constructor
            · simpa [List.count_cons, hne] using hcount
            · intro e hmem
              rcases List.mem_cons.mp hmem with heq | hmem
              · exact absurd (congrArg Prod.fst heq).symm hne
              · exact hpin e hmem

theorem workbook_float_writes_shape (read : String → Except PyErr Entry) :
    ∀ fl fw, workbook_float_writes read fl = .ok fw →
      ∀ x ∈ fw, ∃ p, p ∈ fl ∧ x.1 = "FLOAT_" ++ p.1 := by
  intro fl
  induction fl with
  | nil =>
    intro fw h x hx
    cases h
    cases hx
  | cons p rest ih =>
    intro fw h x hx
    obtain ⟨f, i⟩ := p
    cases hr : read ("xl/" ++ i) with
    | error e =>
      simp only [workbook_float_writes, hr] at h
      exact absurd h (by simp)
    | ok d =>
      cases hrec : workbook_float_writes read rest with
      | error e =>
        simp only [workbook_float_writes, hr, hrec] at h
        exact absurd h (by simp)
      | ok ws' =>
        simp only [workbook_float_writes, hr, hrec] at h
        cases h
        rcases List.mem_cons.mp hx with rfl | hx
        · exact ⟨(f, i), List.mem_cons_self _ _, rfl⟩
        · obtain ⟨q, hq, hn⟩ := ih ws' hrec x hx
          exact ⟨q, List.mem_cons_of_mem _ hq, hn⟩

theorem sheet_float_writes_empty_positions (read : String → Except PyErr Entry) :
    ∀ fl, sheet_float_writes read fl [] = .ok [] := by
  intro fl
  induction fl with
  | nil => rfl
  | cons p rest ih =>
    obtain ⟨f, i⟩ := p
    simpa [sheet_float_writes, pyLookup] using ih

theorem column_float_mem_of (read : String → Except PyErr Entry)
    (positions : List (String × Box)) (targets : List Int) :
    ∀ fl fw f i, (f, i) ∈ fl →
      should_include_floating positions targets f = true →
      column_float_writes read fl positions targets = .ok fw →
      ∃ e, ("FLOAT_" ++ f, e) ∈ fw := by
  intro fl
  induction fl with
  | nil =>
    intro fw f i hm
    cases hm
  | cons p rest ih =>
    intro fw f i hm hinc h
    obtain ⟨g, j⟩ := p
    rcases List.mem_cons.mp hm with heq | hm
    · cases heq
      cases hr : read ("xl/" ++ i) with
      | error e =>
        simp only [column_float_writes, hinc, hr] at h
        exact absurd h (by simp)
      | ok d =>
        cases hrec : column_float_writes read rest positions targets with
        | error e =>
          simp only [column_float_writes, hinc, hr, hrec] at h
          exact absurd h (by simp)
        | ok ws' =>
          simp only [column_float_writes, hinc, hr, hrec] at h
          cases h
          exact ⟨d, List.mem_cons_self _ _⟩
    · cases hing : should_include_floating positions targets g with
      | true =>
        cases hr : read ("xl/" ++ j) with
        | error e =>
          simp only [column_float_writes, hing, hr] at h
          exact absurd h (by simp)
        | ok d =>
          cases hrec : column_float_writes read rest positions targets with
          | error e =>
            simp only [column_float_writes, hing, hr, hrec] at h
            exact absurd h (by simp)
          | ok ws' =>
            simp only [column_float_writes, hing, hr, hrec] at h
            cases h
            obtain ⟨e, he⟩ := ih ws' f i hm hinc hrec
            exact ⟨e, List.mem_cons_of_mem _ he⟩
      | false =>
        simp only [column_float_writes, hing] at h
        exact ih fw f i hm hinc h

theorem column_float_shape (read : String → Except PyErr Entry)
    (positions : List (String × Box)) (targets : List Int) :
    ∀ fl fw, column_float_writes read fl positions targets = .ok fw →
      ∀ x ∈ fw, ∃ f i, (f, i) ∈ fl ∧
        should_include_floating positions targets f = true ∧ x.1 = "FLOAT_" ++ f := by
  intro fl
  induction fl with
  | nil =>
    intro fw h x hx
    cases h
    cases hx
  | cons p rest ih =>
    intro fw h x hx
    obtain ⟨g, j⟩ := p
    cases hing : should_include_floating positions targets g with
    | true =>
      cases hr : read ("xl/" ++ j) with
      | error e =>
        simp only [column_float_writes, hing, hr] at h
        exact absurd h (by simp)
      | ok d =>
        cases hrec : column_float_writes read rest positions targets with
        | error e =>
          simp only [column_float_writes, hing, hr, hrec] at h
          exact absurd h (by simp)
        | ok ws' =>
          simp only [column_float_writes, hing, hr, hrec] at h
          cases h
          rcases List.mem_cons.mp hx with rfl | hx
          · exact ⟨g, j, List.mem_cons_self _ _, hing, rfl⟩
          · obtain ⟨f, i, hm, hi, hn⟩ := ih ws' hrec x hx
            exact ⟨f, i, List.mem_cons_of_mem _ hm, hi, hn⟩
    | false =>
      simp only [column_float_writes, hing] at h
      obtain ⟨f, i, hm, hi, hn⟩ := ih fw h x hx
      exact ⟨f, i, List.mem_cons_of_mem _ hm, hi, hn⟩

/-! ### Helper lemmas: floating-image positions are never recovered -/

theorem picPosition_never_some (pkg : Package) (file_list : List String)
    (drawing_path : String) (pic : XmlElem) :
    ∀ fb, picPosition pkg file_list drawing_path pic ≠ .ok (some fb) := by
  intro fb
  cases hb : findDesc pic aBlipTag with
  | none => simp [picPosition, hb]
  | some blip => simp [picPosition, hb, Element.getparent]

theorem picFold_const (pkg : Package) (file_list : List String) (drawing_path : String) :
    ∀ pics acc, picFold pkg file_list drawing_path pics acc = acc := by
  intro pics
  induction pics with
  | nil => intro acc; rfl
  | cons pic rest ih =>
    intro acc
    cases hp : picPosition pkg file_list drawing_path pic with
    | error e => simpa [picFold, hp] using ih acc
    | ok o =>
      cases o with
      | none => simpa [picFold, hp] using ih acc
      | some fb => exact absurd hp (picPosition_never_some pkg file_list drawing_path pic fb)

theorem positions_empty (pkg : Package) (sheet_name : String) :
    _get_floating_image_positions pkg sheet_name = [] := by
  unfold _get_floating_image_positions
  cases hs : sheetIndexOf pkg sheet_name with
  | none => rfl
  | some idx =>
    simp only
    split
    · rfl
    · next dp hdp =>
      split
      · split
        · rfl
        · split
          · rfl
          · exact picFold_const pkg _ dp _ []
      · rfl

/-! ### Helper lemmas: the DISPIMG identifier slice -/

theorem idxFrom_eq_none {c : Char} {l : List Char} (h : c ∉ l) : idxFrom c l = none := by
  induction l with
  | nil => rfl
  | cons x xs ih =>
    have hx : ¬ (x == c) = true := by
      simp only [beq_iff_eq]
      rintro rfl
      exact h (List.mem_cons_self _ _)
    simp only [idxFrom, hx, if_false]
    rw [ih (fun hm => h (List.mem_cons_of_mem _ hm))]
    rfl

theorem idxFrom_append {c : Char} {a r : List Char} (h : c ∉ a) :
    idxFrom c (a ++ c :: r) = some a.length := by
  induction a with
  | nil => simp [idxFrom]
  | cons x xs ih =>
    have hx : (x == c) = false := by
      rw [beq_eq_false_iff_ne]
      rintro rfl
      exact h (List.mem_cons_self _ _)
    rw [List.cons_append]
    show (if (x == c) = true then some 0
      else (idxFrom c (xs ++ c :: r)).map (· + 1)) = some (x :: xs).length
    rw [hx]
    simp only [Bool.false_eq_true, if_false]
    rw [ih (fun hm => h (List.mem_cons_of_mem _ hm))]
    simp

theorem pyFindChar_of_idx {l : List Char} {c : Char} {s k : Nat}
    (h : idxFrom c (l.drop s) = some k) : pyFindChar l c s = ((k + s : Nat) : Int) := by
  simp only [pyFindChar, h]

theorem pyFindChar_of_none {l : List Char} {c : Char} {s : Nat}
    (h : idxFrom c (l.drop s) = none) : pyFindChar l c s = -1 := by
  simp only [pyFindChar, h]

theorem dispimg_no_quote {v : String} (hm : occursIn dispimg_marker.data v.data = true)
    (hq : '"' ∉ v.data) : dispimg_of_value v = some (String.mk v.data.dropLast) := by
  unfold dispimg_of_value
  rw [if_pos hm]
  dsimp only
  have hf : ∀ s, pyFindChar v.data '"' s = -1 := fun s =>
    pyFindChar_of_none (idxFrom_eq_none (fun hmem => hq (List.drop_subset s v.data hmem)))
  rw [hf 0]
  rw [show ((-1 : Int) + 1).toNat = 0 from rfl]
  rw [hf 0]
  have hslice : pySlice v.data 0 (-1) = v.data.dropLast := by
    simp only [pySlice]
    rw [if_pos (by norm_num : (-1 : Int) < 0)]
    rw [List.drop_zero, List.dropLast_eq_take]
    congr 1
    omega
  rw [hslice]

theorem dispimg_two_quotes {a b c : List Char} (ha : '"' ∉ a) (hb : '"' ∉ b)
    (hm : occursIn dispimg_marker.data (a ++ '"' :: (b ++ '"' :: c)) = true) :
    dispimg_of_value (String.mk (a ++ '"' :: (b ++ '"' :: c))) = some (String.mk b) := by
  unfold dispimg_of_value
  rw [if_pos hm]
  dsimp only
  have h1 : idxFrom '"' ((a ++ '"' :: (b ++ '"' :: c)).drop 0) = some a.length := by
    rw [List.drop_zero]
    exact idxFrom_append ha
  rw [pyFindChar_of_idx h1]
  simp only [Nat.add_zero]
  rw [show (((a.length : Nat) : Int) + 1).toNat = a.length + 1 from by omega]
  have hdrop : (a ++ '"' :: (b ++ '"' :: c)).drop (a.length + 1) = b ++ '"' :: c := by
    have hre : a ++ '"' :: (b ++ '"' :: c) = (a ++ ['"']) ++ (b ++ '"' :: c) := by simp
    have hlen : a.length + 1 = (a ++ ['"']).length := by simp
    rw [hre, hlen, List.drop_left]
  have h2 : idxFrom '"' ((a ++ '"' :: (b ++ '"' :: c)).drop (a.length + 1)) = some b.length := by
    rw [hdrop]
    exact idxFrom_append hb
  rw [pyFindChar_of_idx h2]
  have hslice : pySlice (a ++ '"' :: (b ++ '"' :: c)) (a.length + 1)
      (((b.length + (a.length + 1) : Nat) : Int)) = b := by
    simp only [pySlice]
    rw [if_neg (by omega : ¬ (((b.length + (a.length + 1) : Nat) : Int) < 0))]
    rw [show (((b.length + (a.length + 1) : Nat) : Int)).toNat = a.length + 1 + b.length
      from by omega]
    rw [List.drop_take]
    rw [hdrop]
    rw [show a.length + 1 + b.length - (a.length + 1) = b.length from by omega]
    exact List.take_left b ('"' :: c)
  rw [hslice]

theorem dispimg_scan_single {nm : String} {r k : Nat} {v out : String}
    (h : dispimg_of_value v = some out) :
    _extract_dispimg_ids ⟨nm, [⟨r, k, some v⟩]⟩ none = .ok [out] := by
  simp [_extract_dispimg_ids, dispimg_scan, cellText, h]

/-! ### Helper lemmas: decomposing successful extractions -/

theorem extract_workbook_parts {enum : List String → List String} {pkg : Package}
    {ws : List (String × Entry)}
    (h : extract_workbook_images_with enum pkg true = .ok ws) :
    ∃ emb fl ew fw, _get_all_images_map pkg = .ok (emb, fl) ∧
      embedded_writes pkg.read (enum (workbook_all_ids pkg)) emb = .ok ew ∧
      workbook_float_writes pkg.read fl = .ok fw ∧ ws = ew ++ fw := by
  cases hga : _get_all_images_map pkg with
  | error e =>
    simp only [extract_workbook_images_with, hga] at h
    exact absurd h (by simp)
  | ok p =>
    obtain ⟨emb, fl⟩ := p
    cases hew : embedded_writes pkg.read (enum (workbook_all_ids pkg)) emb with
    | error e =>
      simp only [extract_workbook_images_with, hga, hew] at h
      exact absurd h (by simp)
    | ok ew =>
      cases hfw : workbook_float_writes pkg.read fl with
      | error e =>
        simp only [extract_workbook_images_with, hga, hew, hfw] at h
        exact absurd h (by simp)
      | ok fw =>
        simp only [extract_workbook_images_with, hga, hew, hfw] at h
        cases h
        exact ⟨emb, fl, ew, fw, rfl, hew, hfw, rfl⟩

theorem extract_column_parts {pkg : Package} {sheet_name columns : String}
    {ws : List (String × Entry)}
    (h : extract_column_images pkg sheet_name columns true = .ok ws) :
    ∃ sh column_list ids_per_col emb fl ew targets fw,
      wbGetSheet pkg sheet_name = .ok sh ∧
      parse_column_list columns = .ok column_list ∧
      column_list.mapM (fun col => _extract_dispimg_ids sh (some col)) = .ok ids_per_col ∧
      _get_all_images_map pkg = .ok (emb, fl) ∧
      embedded_writes pkg.read (pySet ids_per_col.flatten) emb = .ok ew ∧
      target_col_indices_of column_list = .ok targets ∧
      column_float_writes pkg.read fl (_get_floating_image_positions pkg sheet_name)
        targets = .ok fw ∧
      ws = ew ++ fw := by
  cases hsh : wbGetSheet pkg sheet_name with
  | error e =>
    simp only [extract_column_images, hsh] at h
    exact absurd h (by simp)
  | ok sh =>
    cases hcl : parse_column_list columns with
    | error e =>
      simp only [extract_column_images, hsh, hcl] at h
      exact absurd h (by simp)
    | ok column_list =>
      cases hids : column_list.mapM (fun col => _extract_dispimg_ids sh (some col)) with
      | error e =>
        simp only [extract_column_images, hsh, hcl, hids] at h
        exact absurd h (by simp)
      | ok ids_per_col =>
        cases hga : _get_all_images_map pkg with
        | error e =>
          simp only [extract_column_images, hsh, hcl, hids, hga] at h
          exact absurd h (by simp)
        | ok p =>
          obtain ⟨emb, fl⟩ := p
          cases hew : embedded_writes pkg.read (pySet ids_per_col.flatten) emb with
          | error e =>
            simp only [extract_column_images, hsh, hcl, hids, hga, hew] at h
            exact absurd h (by simp)
          | ok ew =>
            cases htg : target_col_indices_of column_list with
            | error e =>
              simp only [extract_column_images, hsh, hcl, hids, hga, hew, htg] at h
              exact absurd h (by simp)
            | ok targets =>
              cases hfw : column_float_writes pkg.read fl
                  (_get_floating_image_positions pkg sheet_name) targets with
              | error e =>
                simp only [extract_column_images, hsh, hcl, hids, hga, hew, htg, hfw] at h
                exact absurd h (by simp)
              | ok fw =>
                simp only [extract_column_images, hsh, hcl, hids, hga, hew, htg, hfw] at h
                cases h
                exact ⟨sh, column_list, ids_per_col, emb, fl, ew, targets, fw,
                  rfl, rfl, hids, rfl, hew, htg, hfw, rfl⟩

theorem get_all_images_map_snd {pkg : Package} {emb fl : List (String × String)}
    (h : _get_all_images_map pkg = .ok (emb, fl)) :
    fl = _extract_floating_images pkg := by
  unfold _get_all_images_map at h
  cases hb : _build_id_to_image_map pkg with
  | error e =>
    cases e with
    | keyError m =>
      simp only [hb] at h
      cases h
      rfl
    | attrError m =>
      simp only [hb] at h
      exact absurd h (by simp)
    | valueError m =>
      simp only [hb] at h
      exact absurd h (by simp)
    | parseError m =>
      simp only [hb] at h
      exact absurd h (by simp)
  | ok m =>
    simp only [hb] at h
    cases h
    rfl

/-! ### The claims -/

/-- C3: for every package and every sheet name,
`_get_floating_image_positions` returns the empty mapping: each picture
iteration calls `Element.getparent`, a method `xml.etree` elements do not
have, so the per-picture handler skips every picture and no anchor box is
ever recorded. -/
theorem c3_positions_always_empty :
    ∀ (pkg : Package) (sheet_name : String),
      _get_floating_image_positions pkg sheet_name = [] :=
  positions_empty

/-- C5: for an identifier absent from the resolver mapping (including
when the manifest parts are missing, which leaves the mapping empty),
`extract_image_by_id` returns the not-found result and writes no file. -/
theorem c5_by_id_not_found {pkg : Package} {emb fl : List (String × String)}
    {image_id : String}
    (hga : _get_all_images_map pkg = .ok (emb, fl))
    (hnone : pyLookup emb image_id = none) :
    extract_image_by_id pkg image_id = .ok none := by
  simp only [extract_image_by_id, hga, hnone]

theorem c5_by_id_not_found_witness :
    extract_image_by_id pkgMediaOnly "X" = .ok none :=
  @c5_by_id_not_found pkgMediaOnly [] [("pic.png", "media/pic.png")] "X" rfl rfl

/-- C8: extractColumn with the range spec A-C and with the list spec
A,B,C produce identical extractions on every package and sheet — the two
specs parse to the same column list, so in particular they select exactly
the same set of embedded identifiers. -/
theorem c8_range_equals_list :
    ∀ (pkg : Package) (sheet_name : String) (inc : Bool),
      extract_column_images pkg sheet_name "A-C" inc =
        extract_column_images pkg sheet_name "A,B,C" inc := by
  intro pkg sheet_name inc
  have h1 : parse_column_list "A-C" = .ok ["A", "B", "C"] := by rfl
  have h2 : parse_column_list "A,B,C" = .ok ["A", "B", "C"] := by rfl
  simp only [extract_column_images, h1, h2]

/-- C10: a cell whose text holds the DISPIMG marker but no double quote
at all is not skipped: both quote searches return -1 and the scanner
emits the whole cell text minus its final character. -/
theorem c10_no_quote_emits_droplast {nm : String} {r k : Nat} {v : String}
    (hm : occursIn dispimg_marker.data v.data = true)
    (hq : '"' ∉ v.data) :
    _extract_dispimg_ids ⟨nm, [⟨r, k, some v⟩]⟩ none = .ok [String.mk v.data.dropLast] :=
  dispimg_scan_single (dispimg_no_quote hm hq)

theorem c10_no_quote_emits_droplast_witness :
    _extract_dispimg_ids ⟨"S", [⟨1, 1, some "=_xlfn.DISPIMG(1)"⟩]⟩ none =
      .ok [String.mk "=_xlfn.DISPIMG(1)".data.dropLast] :=
  @c10_no_quote_emits_droplast "S" 1 1 "=_xlfn.DISPIMG(1)" (by decide) (by decide)

/-- C6 fails as stated: the scanner slices between the first two double
quotes of the whole cell text, not between the quotes following the
marker; with a quoted prefix before the marker the emitted identifier is
the prefix content A rather than ID_001. -/
theorem c6_first_quote_counterexample :
    _extract_dispimg_ids ⟨"S", [⟨1, 1, some "\"A\"=_xlfn.DISPIMG(\"ID_001\",1)"⟩]⟩ none =
      .ok ["A"] ∧ ("A" : String) ≠ "ID_001" := by
  constructor
  · rfl
  · decide

/-- C6 amended: for a cell text holding the marker, the scanner yields
the text between the first two double-quote characters of the whole cell
text (which are the quotes following the marker whenever no quote
precedes it); in particular the plain DISPIMG formula yields ID_001. -/
theorem c6_scanner_first_quotes_of_text {nm : String} {r k : Nat} {a b c : List Char}
    (ha : '"' ∉ a) (hb : '"' ∉ b)
    (hm : occursIn dispimg_marker.data (a ++ '"' :: (b ++ '"' :: c)) = true) :
    _extract_dispimg_ids
        ⟨nm, [⟨r, k, some (String.mk (a ++ '"' :: (b ++ '"' :: c)))⟩]⟩ none =
      .ok [String.mk b] :=
  dispimg_scan_single (dispimg_two_quotes ha hb hm)

theorem c6_scanner_first_quotes_of_text_witness :
    _extract_dispimg_ids
        ⟨"S", [⟨1, 1, some (String.mk
          ("=_xlfn.DISPIMG(".data ++ '"' :: ("ID_001".data ++ '"' :: ",1)".data)))⟩]⟩ none =
      .ok [String.mk "ID_001".data] :=
  @c6_scanner_first_quotes_of_text "S" 1 1 "=_xlfn.DISPIMG(".data "ID_001".data ",1)".data
    (by decide) (by decide) (by decide)

/-- C1: in the floating phase of extractColumn, an image whose position
data is available is included in the extraction exactly when its
`[from_col, to_col]` anchor interval meets the requested 0-based column
index set (the position map is a parameter of the phase; in the composed
function it is always empty, see C3). -/
theorem c1_column_filter_intersects {read : String → Except PyErr Entry}
    {fl : List (String × String)} {positions : List (String × Box)} {targets : List Int}
    {f internal : String} {pos : Box} {fw : List (String × Entry)}
    (hmem : (f, internal) ∈ fl)
    (hpos : pyLookup positions f = some pos)
    (hfw : column_float_writes read fl positions targets = .ok fw) :
    (∃ e, ("FLOAT_" ++ f, e) ∈ fw) ↔
      ∃ c, c ∈ targets ∧ pos.from_col ≤ c ∧ c ≤ pos.to_col := by
  constructor
  · rintro ⟨e, he⟩
    obtain ⟨f', i', hm', hinc', hn'⟩ :=
      column_float_shape read positions targets fl fw hfw ("FLOAT_" ++ f, e) he
    have hff : f = f' := string_append_left_cancel hn'
    subst hff
    exact (should_include_iff hpos).mp hinc'
  · intro hint
    exact column_float_mem_of read positions targets fl fw f internal hmem
      ((should_include_iff hpos).mpr hint) hfw

theorem c1_column_filter_intersects_witness :
    ((∃ e, ("FLOAT_" ++ "pic.png", e) ∈ [("FLOAT_pic.png", Entry.bin [9])]) ↔
      ∃ c, c ∈ [(1 : Int)] ∧ (1 : Int) ≤ c ∧ c ≤ (2 : Int)) ∧
    ((∃ e, ("FLOAT_" ++ "pic.png", e) ∈ ([] : List (String × Entry))) ↔
      ∃ c, c ∈ [(3 : Int)] ∧ (1 : Int) ≤ c ∧ c ≤ (2 : Int)) := by
  constructor
  · exact @c1_column_filter_intersects pkgMediaOnly.read [("pic.png", "media/pic.png")]
      [("pic.png", ⟨1, 2, 0, 5⟩)] [1] "pic.png" "media/pic.png" ⟨1, 2, 0, 5⟩
      [("FLOAT_pic.png", Entry.bin [9])] (by decide) rfl rfl
  · exact @c1_column_filter_intersects pkgMediaOnly.read [("pic.png", "media/pic.png")]
      [("pic.png", ⟨1, 2, 0, 5⟩)] [3] "pic.png" "media/pic.png" ⟨1, 2, 0, 5⟩
      [] (by decide) rfl rfl

/-- C2 fails as stated: `pkgMediaOnly` has a floating image with no
resolvable position data, yet `extract_sheet_images` writes nothing — the
sheet extractor includes only floating images present in the sheet
position map, so the unpositioned image is excluded rather than always
included. -/
theorem c2_sheet_excludes_counterexample :
    pyLookup (_get_floating_image_positions pkgMediaOnly "S") "pic.png" = none ∧
    ("pic.png", "media/pic.png") ∈ _extract_floating_images pkgMediaOnly ∧
    extract_sheet_images pkgMediaOnly "S" true = .ok [] := by
  refine ⟨rfl, ?_, rfl⟩
  decide

/-- C2 amended: a floating image with no resolvable position data is
always included by extractColumn (permissive fallback), regardless of the
requested columns; extractSheet by contrast excludes it — its floating
phase writes only images present in the sheet position map. -/
theorem c2_column_includes_sheet_excludes {pkg : Package}
    {sheet_name columns f internal : String} {ws : List (String × Entry)}
    (hf : (f, internal) ∈ _extract_floating_images pkg)
    (hnp : pyLookup (_get_floating_image_positions pkg sheet_name) f = none)
    (hcw : extract_column_images pkg sheet_name columns true = .ok ws) :
    (∃ e, ("FLOAT_" ++ f, e) ∈ ws) ∧
    sheet_float_writes pkg.read (_extract_floating_images pkg)
      (_get_floating_image_positions pkg sheet_name) = .ok [] := by
  constructor
  · obtain ⟨sh, cl, ids, emb, fl, ew, targets, fw, hsh, hcl, hids, hga, hew, htg, hfw, rfl⟩ :=
      extract_column_parts hcw
    have hfl : fl = _extract_floating_images pkg := get_all_images_map_snd hga
    have hinc : should_include_floating (_get_floating_image_positions pkg sheet_name)
        targets f = true := by
      unfold should_include_floating
      rw [hnp]
    obtain ⟨e, he⟩ := column_float_mem_of pkg.read
      (_get_floating_image_positions pkg sheet_name) targets fl fw f internal
      (hfl ▸ hf) hinc hfw
    exact ⟨e, List.mem_append_right _ he⟩
  · rw [positions_empty]
    exact sheet_float_writes_empty_positions pkg.read _

theorem c2_column_includes_sheet_excludes_witness :
    (∃ e, ("FLOAT_" ++ "pic.png", e) ∈ [("FLOAT_pic.png", Entry.bin [9])]) ∧
    sheet_float_writes pkgMediaOnly.read (_extract_floating_images pkgMediaOnly)
      (_get_floating_image_positions pkgMediaOnly "S") = .ok [] :=
  @c2_column_includes_sheet_excludes pkgMediaOnly "S" "D" "pic.png" "media/pic.png"
    [("FLOAT_pic.png", Entry.bin [9])] (by decide) rfl rfl

/-- C7: when either cell-image manifest part is missing, the resolver
raises `KeyError`, `_get_all_images_map` swallows it into an empty
embedded mapping, and every orchestrator proceeds with zero embedded
images and no error from that failure: extractWorkbook degenerates to its
floating phase, extractById reports not-found for every identifier,
extractSheet succeeds (writing nothing) whenever the sheet exists, and
every successful extractColumn write is a floating write. -/
theorem c7_missing_manifest_swallowed {pkg : Package}
    (h : pkg.namelist.contains "xl/cellimages.xml" = false ∨
         pkg.namelist.contains "xl/_rels/cellimages.xml.rels" = false) :
    (∃ m, _build_id_to_image_map pkg = .error (.keyError m)) ∧
    _get_all_images_map pkg = .ok ([], _extract_floating_images pkg) ∧
    extract_workbook_images pkg true =
      workbook_float_writes pkg.read (_extract_floating_images pkg) ∧
    (∀ image_id, extract_image_by_id pkg image_id = .ok none) ∧
    (∀ sheet_name, extract_sheet_images pkg sheet_name true =
      (wbGetSheet pkg sheet_name).map (fun _ => ([] : List (String × Entry)))) ∧
    (∀ sheet_name columns ws,
      extract_column_images pkg sheet_name columns true = .ok ws →
      ∀ x ∈ ws, ∃ f e, x = ("FLOAT_" ++ f, e)) := by
  have hbuild : ∃ m, _build_id_to_image_map pkg = .error (.keyError m) := by
    cases hc1 : pkg.namelist.contains "xl/cellimages.xml" with
    | false =>
      refine ⟨"No embedded images found: cellimages.xml", ?_⟩
      simp only [_build_id_to_image_map]
      rw [if_pos hc1]
    | true =>
      have h2 : pkg.namelist.contains "xl/_rels/cellimages.xml.rels" = false := by
        rcases h with h' | h'
        · rw [hc1] at h'
          cases h'
        · exact h'
      refine ⟨"No embedded images found: cellimages.xml.rels", ?_⟩
      simp only [_build_id_to_image_map]
      rw [if_neg (by simp only [hc1]; simp), if_pos h2]
  obtain ⟨m, hb⟩ := hbuild
  have hga : _get_all_images_map pkg = .ok ([], _extract_floating_images pkg) := by
    unfold _get_all_images_map
    rw [hb]
  refine ⟨⟨m, hb⟩, hga, ?_, ?_, ?_, ?_⟩
  · simp only [extract_workbook_images, extract_workbook_images_with, hga,
      embedded_writes_empty_map]
    cases hwf : workbook_float_writes pkg.read (_extract_floating_images pkg) with
    | error e => rfl
    | ok fw => simp
  · intro image_id
    simp only [extract_image_by_id, hga]
    rfl
  · intro sheet_name
    cases hsh : wbGetSheet pkg sheet_name with
    | error e =>
      simp only [extract_sheet_images, hsh]
      rfl
    | ok sh =>
      simp only [extract_sheet_images, hsh, _extract_dispimg_ids, hga,
        embedded_writes_empty_map, positions_empty, sheet_float_writes_empty_positions]
      rfl
  · intro sheet_name columns ws hcol x hx
    obtain ⟨sh, cl, ids, emb, fl, ew, targets, fw, hsh, hcl, hids, hga', hew, htg, hfw, rfl⟩ :=
      extract_column_parts hcol
    rw [hga] at hga'
    cases hga'
    rw [embedded_writes_empty_map] at hew
    cases hew
    rw [List.nil_append] at hx
    obtain ⟨f, i, hm, hi, hn⟩ := column_float_shape pkg.read _ targets _ fw hfw x hx
    obtain ⟨x1, x2⟩ := x
    exact ⟨f, x2, by rw [show x1 = "FLOAT_" ++ f from hn]⟩

theorem c7_missing_manifest_swallowed_witness :
    (∃ m, _build_id_to_image_map pkgMediaOnly = .error (.keyError m)) ∧
    _get_all_images_map pkgMediaOnly = .ok ([], _extract_floating_images pkgMediaOnly) ∧
    extract_workbook_images pkgMediaOnly true =
      workbook_float_writes pkgMediaOnly.read (_extract_floating_images pkgMediaOnly) ∧
    (∀ image_id, extract_image_by_id pkgMediaOnly image_id = .ok none) ∧
    (∀ sheet_name, extract_sheet_images pkgMediaOnly sheet_name true =
      (wbGetSheet pkgMediaOnly sheet_name).map (fun _ => ([] : List (String × Entry)))) ∧
    (∀ sheet_name columns ws,
      extract_column_images pkgMediaOnly sheet_name columns true = .ok ws →
      ∀ x ∈ ws, ∃ f e, x = ("FLOAT_" ++ f, e)) :=
  @c7_missing_manifest_swallowed pkgMediaOnly (Or.inl rfl)

/-- C4 fails as stated: in `pkgCollision` the embedded identifier
`FLOAT_pic` is both scanned and resolved, yet extractWorkbook performs
two writes named `FLOAT_pic.png` — the embedded one and then the floating
image `pic.png` — so the file of that name does not end up with the bytes
of the embedded package entry. -/
theorem c4_collision_counterexample :
    "FLOAT_pic" ∈ workbook_all_ids pkgCollision ∧
    (∃ emb fl, _get_all_images_map pkgCollision = .ok (emb, fl) ∧
      pyLookup emb "FLOAT_pic" = some "embeddings/e1.png") ∧
    pkgCollision.read ("xl/" ++ "embeddings/e1.png") = .ok (.bin [1]) ∧
    extract_workbook_images pkgCollision true =
      .ok [("FLOAT_pic" ++ ".png", .bin [1]), ("FLOAT_pic" ++ ".png", .bin [2])] ∧
    (([("FLOAT_pic" ++ ".png", Entry.bin [1]), ("FLOAT_pic" ++ ".png", Entry.bin [2])].map
      Prod.fst).count ("FLOAT_pic" ++ ".png") = 2) ∧
    Entry.bin [2] ≠ Entry.bin [1] := by
  refine ⟨by decide,
    ⟨[("FLOAT_pic", "embeddings/e1.png")], [("pic.png", "media/pic.png")], rfl, rfl⟩,
    rfl, rfl, by decide, by simp⟩

/-- C4 amended: for an identifier present in both the cell scan and the
resolver mapping, extractWorkbook performs exactly one write named
`<identifier>.png` and its content is the corresponding package entry,
provided no floating image produces the same output name
`FLOAT_<filename>` (without that proviso the floating write can overwrite
the embedded one, see the counterexample). -/
theorem c4_embedded_unique_bytes {pkg : Package} {id target : String}
    {emb fl : List (String × String)} {ws : List (String × Entry)}
    (hga : _get_all_images_map pkg = .ok (emb, fl))
    (hid : id ∈ workbook_all_ids pkg)
    (hmap : pyLookup emb id = some target)
    (hnc : ∀ p ∈ fl, "FLOAT_" ++ p.1 ≠ id ++ ".png")
    (hws : extract_workbook_images pkg true = .ok ws) :
    (ws.map Prod.fst).count (id ++ ".png") = 1 ∧
    ∀ e, (id ++ ".png", e) ∈ ws → pkg.read ("xl/" ++ target) = .ok e := by
  obtain ⟨emb', fl', ew, fw, hga', hew, hfw, rfl⟩ := extract_workbook_parts hws
  rw [hga] at hga'
  cases hga'
  obtain ⟨hcount, hpin⟩ := embedded_writes_unique pkg.read emb
    (pySet (workbook_all_ids pkg)) ew (pySet_nodup _) hew id target
    (pySet_mem.mpr hid) hmap
  have hfzero : (fw.map Prod.fst).count (id ++ ".png") = 0 := by
    rw [List.count_eq_zero]
    intro hmem
    obtain ⟨x, hxm, hx1⟩ := List.mem_map.mp hmem
    obtain ⟨p, hp, hname⟩ := workbook_float_writes_shape pkg.read fl fw hfw x hxm
    exact hnc p hp (hname ▸ hx1)
  constructor
  · rw [List.map_append, List.count_append, hcount, hfzero]
  · intro e hmem
    rcases List.mem_append.mp hmem with hmem | hmem
    · exact hpin e hmem
    · exfalso
      obtain ⟨p, hp, hname⟩ := workbook_float_writes_shape pkg.read fl fw hfw _ hmem

      exact hnc p hp (hname ▸ rfl)

theorem c4_embedded_unique_bytes_witness :
    (([("IDA" ++ ".png", Entry.bin [1]), ("FLOAT_pic.png", Entry.bin [2])].map
      Prod.fst).count ("IDA" ++ ".png") = 1) ∧
    (∀ e, ("IDA" ++ ".png", e) ∈
        [("IDA" ++ ".png", Entry.bin [1]), ("FLOAT_pic.png", Entry.bin [2])] →
      pkgClean.read ("xl/" ++ "embeddings/e1.png") = .ok e) :=
  @c4_embedded_unique_bytes pkgClean "IDA" "embeddings/e1.png"
    [("IDA", "embeddings/e1.png")] [("pic.png", "media/pic.png")]
    [("IDA" ++ ".png", Entry.bin [1]), ("FLOAT_pic.png", Entry.bin [2])]
    rfl (by decide) rfl (by decide) rfl

/-- C9: extractWorkbook run with any two valid enumerations of the
scanned identifier set (Python leaves the `set` iteration order
unspecified) yields the same set of output filenames: the default names
depend only on identifier membership, so re-running the extraction
produces the same file set and overwrites the previous one. -/
theorem c9_filenames_set_order_independent {enum1 enum2 : List String → List String}
    {pkg : Package} {w1 w2 : List (String × Entry)}
    (h1 : isSetEnum enum1 (workbook_all_ids pkg))
    (h2 : isSetEnum enum2 (workbook_all_ids pkg))
    (hw1 : extract_workbook_images_with enum1 pkg true = .ok w1)
    (hw2 : extract_workbook_images_with enum2 pkg true = .ok w2) :
    ∀ n, n ∈ w1.map Prod.fst ↔ n ∈ w2.map Prod.fst := by
  obtain ⟨emb1, fl1, ew1, fw1, hga1, hew1, hfw1, rfl⟩ := extract_workbook_parts hw1
  obtain ⟨emb2, fl2, ew2, fw2, hga2, hew2, hfw2, rfl⟩ := extract_workbook_parts hw2
  rw [hga1] at hga2
  cases hga2
  rw [hfw1] at hfw2
  cases hfw2
  intro n
  simp only [List.map_append, List.mem_append]
  rw [embedded_writes_names pkg.read emb1 _ ew1 hew1 n,
    embedded_writes_names pkg.read emb1 _ ew2 hew2 n]
  refine or_congr ?_ Iff.rfl
  constructor
  · rintro ⟨id, hm, ht, rfl⟩
    exact ⟨id, h2.2 id (h1.1 id hm), ht, rfl⟩
  · rintro ⟨id, hm, ht, rfl⟩
    exact ⟨id, h1.2 id (h2.1 id hm), ht, rfl⟩

theorem c9_filenames_set_order_independent_witness :
    ("A1" ++ ".png" ∈
      ([("A1.png", Entry.bin [1]), ("B1.png", Entry.bin [2])] :
        List (String × Entry)).map Prod.fst ↔
     "A1" ++ ".png" ∈
      ([("B1.png", Entry.bin [2]), ("A1.png", Entry.bin [1])] :
        List (String × Entry)).map Prod.fst) :=
  @c9_filenames_set_order_independent pySet pySetRev pkgTwoIds
    [("A1.png", Entry.bin [1]), ("B1.png", Entry.bin [2])]
    [("B1.png", Entry.bin [2]), ("A1.png", Entry.bin [1])]
    (by constructor <;> decide) (by constructor <;> decide) rfl rfl ("A1" ++ ".png")
